import Mathlib

/-!
Shallow embedding of the `gobson_exp` BSON codec and wire-message layer.

Byte buffers are modelled as `List Nat` (each entry a byte value `< 256`;
every byte the embedded code produces is taken `% 256`).  Go strings are
byte sequences; element names and string payloads are modelled via their
UTF-8 bytes.  Go's `panic` becomes the `Except.error` branch of the
operations; integers of the Go source (`int32`, `int64`, unsigned) become
`Int`/`Nat` with explicit `% 2^w` wrapping at the conversion points the
source performs.
-/

namespace GobsonExp

/-- UTF-8 encoding of one character (standard RFC 3629 byte shapes). -/
def utf8Char (c : Char) : List Nat :=
  let n := c.toNat
  if n < 0x80 then [n]
  else if n < 0x800 then [0xC0 + n / 64, 0x80 + n % 64]
  else if n < 0x10000 then [0xE0 + n / 4096, 0x80 + n / 64 % 64, 0x80 + n % 64]
  else [0xF0 + n / 262144, 0x80 + n / 4096 % 64, 0x80 + n / 64 % 64, 0x80 + n % 64]

/-- UTF-8 bytes of a string, as numbers, mirroring Go's `[]byte(s)`
(Go strings hold the UTF-8 encoding of their text). -/
def utf8 (s : String) : List Nat :=
  s.data.flatMap utf8Char

/-- Go `uint32(v)` applied to a signed value: two's-complement wrap. -/
def toUInt32 (v : Int) : Nat := (v % (2 ^ 32 : Int)).toNat

/-- Go `uint64(v)` applied to a signed value: two's-complement wrap. -/
def toUInt64 (v : Int) : Nat := (v % (2 ^ 64 : Int)).toNat

/-- Go `int64(u)` applied to a `uint64` value: reinterpret the bits. -/
def toInt64 (u : Nat) : Int :=
  if u < 2 ^ 63 then (u : Int) else (u : Int) - 2 ^ 64

/-- Go `int32(u)` applied to a `uint32` value: reinterpret the bits. -/
def toInt32 (u : Nat) : Int :=
  if u < 2 ^ 31 then (u : Int) else (u : Int) - 2 ^ 32

/-- The four little-endian bytes of a 32-bit quantity
(`byte(u), byte(u>>8), byte(u>>16), byte(u>>24)`). -/
def le32 (u : Nat) : List Nat :=
  [u % 256, u / 2 ^ 8 % 256, u / 2 ^ 16 % 256, u / 2 ^ 24 % 256]

/-- The eight little-endian bytes of a 64-bit quantity. -/
def le64 (u : Nat) : List Nat :=
  [u % 256, u / 2 ^ 8 % 256, u / 2 ^ 16 % 256, u / 2 ^ 24 % 256,
   u / 2 ^ 32 % 256, u / 2 ^ 40 % 256, u / 2 ^ 48 % 256, u / 2 ^ 56 % 256]

/-- The four big-endian bytes of a 32-bit quantity. -/
def be32 (u : Nat) : List Nat :=
  [u / 2 ^ 24 % 256, u / 2 ^ 16 % 256, u / 2 ^ 8 % 256, u % 256]

/-- The eight big-endian bytes of a 64-bit quantity. -/
def be64 (u : Nat) : List Nat :=
  [u / 2 ^ 56 % 256, u / 2 ^ 48 % 256, u / 2 ^ 40 % 256, u / 2 ^ 32 % 256,
   u / 2 ^ 24 % 256, u / 2 ^ 16 % 256, u / 2 ^ 8 % 256, u % 256]

/-- Reassemble the unsigned 32-bit value from 4 little-endian bytes
(absent bytes read as 0). -/
def readLE32 (l : List Nat) : Nat :=
  l.getD 0 0 + 2 ^ 8 * l.getD 1 0 + 2 ^ 16 * l.getD 2 0 + 2 ^ 24 * l.getD 3 0

/-- Go `bytesToInt32`.  Modelled from the spec: the helper that parses
`raw[offset:]` as a little-endian `int32` lives in a file of this
repository that is not under `src/`; the spec fixes the format as
"int32 little-endian". -/
def bytesToInt32 (l : List Nat) : Int := toInt32 (readLE32 l)

/-! ## The document builder (`src/bson/bson.go`)

`Bson` in Go carries `raw`, `offset`, `child *Bson`, `inChild`, `finished`.
A child builder is a separate `*Bson` sharing the parent's buffer; in Go the
parent's `child` pointer aliases the builder the caller mutates, so here the
closing operation takes the (mutated) child state explicitly.  Operations
that `panic` in Go return `Except.error msg`. -/

structure Bson where
  raw : List Nat
  offset : Nat
  inChild : Bool
  finished : Bool
deriving Repr, DecidableEq

deriving instance DecidableEq for Except

/-- Go `eod`: the end-of-document byte. -/
def eod : Nat := 0x00

/-- Go `Bson.setInt32`: write the 4 little-endian bytes of `v` at `pos`. -/
def Bson.setInt32 (raw : List Nat) (pos : Nat) (v : Int) : List Nat :=
  let u := toUInt32 v
  ((((raw.set pos (u % 256)).set (pos + 1) (u / 2 ^ 8 % 256)).set
      (pos + 2) (u / 2 ^ 16 % 256)).set (pos + 3) (u / 2 ^ 24 % 256))

/-- Go `NewBson`: fresh builder; `reserveInt32` appends `0,0,0,0`. -/
def NewBson : Bson := ⟨[0, 0, 0, 0], 0, false, false⟩

/-- Go `NewBsonWithRaw`: wrap a raw buffer as a finished document. -/
def NewBsonWithRaw (raw : List Nat) : Bson := ⟨raw, 0, false, true⟩

/-- Go `Bson.Raw`: the slice `raw[offset:]`. -/
def Bson.Raw (b : Bson) : List Nat := b.raw.drop b.offset

/-- Go `Bson.Length` (on a finished document): `bytesToInt32(raw[offset:])`. -/
def Bson.Length (b : Bson) : Int := bytesToInt32 b.Raw

/-- Go `Bson.checkBeforeAppend`: the panic this raises, if any. -/
def Bson.checkBeforeAppend (b : Bson) : Option String :=
  if b.finished then some "the bson is finished"
  else if b.inChild then some "in child bson" else none

/-- Go `bson.appendCString(v)`: UTF-8 bytes of `v` followed by `0x00`. -/
def cstring (s : String) : List Nat := utf8 s ++ [0x00]

/-- The internal `bson.appendInt32` (no precondition check): append the
4 little-endian bytes of `uint32(v)`. -/
def Bson.appendInt32Raw (raw : List Nat) (v : Int) : List Nat :=
  raw ++ le32 (toUInt32 v)

/-- The internal `bson.appendInt64`: append 8 little-endian bytes. -/
def Bson.appendInt64Raw (raw : List Nat) (v : Int) : List Nat :=
  raw ++ le64 (toUInt64 v)

/-- The internal `bson.appendFloat64`.  A `float64` value is modelled by its
IEEE-754 bit pattern `bits = math.Float64bits(v) : Nat` (`< 2^64`), since the
source only moves the bits: `appendInt64(int64(Float64bits(v)))`. -/
def Bson.appendFloat64Raw (raw : List Nat) (bits : Nat) : List Nat :=
  Bson.appendInt64Raw raw (toInt64 bits)

/-- Go `Bson.Finish`: check, append `eod`, back-patch the length prefix. -/
def Bson.Finish (b : Bson) : Except String Bson :=
  match b.checkBeforeAppend with
  | some e => .error e
  | none =>
      let raw := b.raw ++ [eod]
      .ok { b with raw := Bson.setInt32 raw b.offset ((raw.length : Int) - b.offset),
                   finished := true }

/-- Go `Bson.AppendString`: tag `0x02`, cstring name,
`int32(len(value)+1)` little-endian, cstring value. -/
def Bson.AppendString (b : Bson) (name value : String) : Except String Bson :=
  match b.checkBeforeAppend with
  | some e => .error e
  | none =>
      let pre := Bson.appendInt32Raw (b.raw ++ [0x02] ++ cstring name) ((utf8 value).length + 1)
      .ok { b with raw := pre ++ cstring value }

/-- Go `Bson.AppendInt32`: tag `0x10`, cstring name, 4 LE bytes. -/
def Bson.AppendInt32 (b : Bson) (name : String) (v : Int) : Except String Bson :=
  match b.checkBeforeAppend with
  | some e => .error e
  | none => .ok { b with raw := Bson.appendInt32Raw (b.raw ++ [0x10] ++ cstring name) v }

/-- Go `Bson.AppendInt64`: tag `0x12`, cstring name, 8 LE bytes. -/
def Bson.AppendInt64 (b : Bson) (name : String) (v : Int) : Except String Bson :=
  match b.checkBeforeAppend with
  | some e => .error e
  | none => .ok { b with raw := Bson.appendInt64Raw (b.raw ++ [0x12] ++ cstring name) v }

/-- Go `Bson.AppendFloat64` (value as IEEE bit pattern): tag `0x01`. -/
def Bson.AppendFloat64 (b : Bson) (name : String) (bits : Nat) : Except String Bson :=
  match b.checkBeforeAppend with
  | some e => .error e
  | none => .ok { b with raw := Bson.appendFloat64Raw (b.raw ++ [0x01] ++ cstring name) bits }

/-- Go `Bson.AppendNull`: tag `0x0A`, cstring name, no payload. -/
def Bson.AppendNull (b : Bson) (name : String) : Except String Bson :=
  match b.checkBeforeAppend with
  | some e => .error e
  | none => .ok { b with raw := b.raw ++ [0x0A] ++ cstring name }

/-- Go `Bson.AppendBool`: tag `0x08`, cstring name, one byte `1` or `0`. -/
def Bson.AppendBool (b : Bson) (name : String) (v : Bool) : Except String Bson :=
  match b.checkBeforeAppend with
  | some e => .error e
  | none => .ok { b with raw := b.raw ++ [0x08] ++ cstring name ++ [if v then 1 else 0] }

/-- Go `Bson.AppendBsonStart`: tag `0x03`, cstring name, then a child builder
sharing the buffer with `offset = len(raw)` and 4 reserved bytes; the parent
gets `inChild := true`.  Returns `(parent, child)`. -/
def Bson.AppendBsonStart (b : Bson) (name : String) : Except String (Bson × Bson) :=
  match b.checkBeforeAppend with
  | some e => .error e
  | none =>
      let raw := b.raw ++ [0x03] ++ cstring name
      let child : Bson := ⟨raw ++ [0, 0, 0, 0], raw.length, false, false⟩
      .ok ({ b with raw := raw, inChild := true }, child)

/-- Go `Bson.AppendBsonEnd`: requires `inChild`, not `finished`, and the child's
last byte to be `eod`; adopts the child's buffer.  The Go source indexes
`child.raw[len(child.raw)-1]`, which aborts on an empty buffer; the `none`
branch mirrors that index abort. -/
def Bson.AppendBsonEnd (b child : Bson) : Except String Bson :=
  if !b.inChild then .error "not in child bson"
  else if b.finished then .error "the bson is finished"
  else match child.raw.getLast? with
    | none => .error "index out of range"
    | some last =>
        if last != eod then .error "the child bson is not finished"
        else .ok { b with raw := child.raw, inChild := false }

/-- Go `Bson.AppendArrayStart`: same shape as `AppendBsonStart` with tag `0x04`
(the child is the `bson` field of the returned `BsonArray`). -/
def Bson.AppendArrayStart (b : Bson) (name : String) : Except String (Bson × Bson) :=
  match b.checkBeforeAppend with
  | some e => .error e
  | none =>
      let raw := b.raw ++ [0x04] ++ cstring name
      let child : Bson := ⟨raw ++ [0, 0, 0, 0], raw.length, false, false⟩
      .ok ({ b with raw := raw, inChild := true }, child)

/-- Go `Bson.AppendArrayEnd`: identical checks to `AppendBsonEnd`, with the
array wording in the messages. -/
def Bson.AppendArrayEnd (b child : Bson) : Except String Bson :=
  if !b.inChild then .error "not in child array"
  else if b.finished then .error "the bson is finished"
  else match child.raw.getLast? with
    | none => .error "index out of range"
    | some last =>
        if last != eod then .error "the child array is not finished"
        else .ok { b with raw := child.raw, inChild := false }

/-- Go `Binary`: a one-byte subtype and a payload that is nil (`none`) or
a byte slice (`some`, possibly empty). -/
structure Binary where
  Subtype : Nat
  Data : Option (List Nat)
deriving Repr, DecidableEq

/-- Go `RegEx`: pattern and options strings. -/
structure RegEx where
  Pattern : String
  Options : String
deriving Repr, DecidableEq

/-- Go `Timestamp`: two int32 fields, increment and second. -/
structure Timestamp where
  Increment : Int
  Second : Int
deriving Repr, DecidableEq

/-- Go `ObjectId.IsValid`.  Modelled from the spec: the `ObjectId` type is
defined outside `src/`; the spec fixes it as 12 bytes, valid iff not all
zero. -/
def ObjectId.IsValid (oid : List Nat) : Bool :=
  oid.length == 12 && oid.any (fun b => b != 0)

/-- The text form of a byte sequence (each byte as its code point), used
only inside the invalid-ObjectId panic message; the claims concern the
abort itself, not the message payload. -/
def bytesAsString (l : List Nat) : String :=
  String.mk (l.map Char.ofNat)

/-- Go `Bson.AppendBson`: tag `0x03`, cstring name, the document's raw
bytes. -/
def Bson.AppendBson (b : Bson) (name : String) (value : Bson) : Except String Bson :=
  match b.checkBeforeAppend with
  | some e => .error e
  | none => .ok { b with raw := b.raw ++ [0x03] ++ cstring name ++ value.Raw }

/-- Go `Bson.AppendArray`: tag `0x04`, cstring name, the array document's
raw bytes (`value` is the array's underlying `bson`). -/
def Bson.AppendArray (b : Bson) (name : String) (value : Bson) : Except String Bson :=
  match b.checkBeforeAppend with
  | some e => .error e
  | none => .ok { b with raw := b.raw ++ [0x04] ++ cstring name ++ value.Raw }

/-- Go `Bson.AppendBinary`: after the builder check, a nil payload panics
`"binary is null"`; otherwise tag `0x05`, cstring name, int32 length,
subtype byte, payload. -/
def Bson.AppendBinary (b : Bson) (name : String) (value : Binary) : Except String Bson :=
  match b.checkBeforeAppend with
  | some e => .error e
  | none =>
      match value.Data with
      | none => .error "binary is null"
      | some data =>
          let pre := Bson.appendInt32Raw (b.raw ++ [0x05] ++ cstring name) data.length
          .ok { b with raw := pre ++ [value.Subtype % 256] ++ data }

/-- Go `Bson.AppendObjectId`: after the builder check, an invalid id panics
`"invalid ObjectId: <id>"`; otherwise tag `0x07`, cstring name, the 12 id
bytes. -/
def Bson.AppendObjectId (b : Bson) (name : String) (value : List Nat) : Except String Bson :=
  match b.checkBeforeAppend with
  | some e => .error e
  | none =>
      if !(ObjectId.IsValid value) then .error ("invalid ObjectId: " ++ bytesAsString value)
      else .ok { b with raw := b.raw ++ [0x07] ++ cstring name ++ value }

/-- Go `Bson.AppendDate` (a `Date` is a 64-bit millisecond count):
tag `0x09`, cstring name, 8 LE bytes. -/
def Bson.AppendDate (b : Bson) (name : String) (value : Int) : Except String Bson :=
  match b.checkBeforeAppend with
  | some e => .error e
  | none => .ok { b with raw := Bson.appendInt64Raw (b.raw ++ [0x09] ++ cstring name) value }

/-- Go `Bson.AppendRegex`: tag `0x0B`, cstring name, cstring pattern,
cstring options. -/
def Bson.AppendRegex (b : Bson) (name : String) (value : RegEx) : Except String Bson :=
  match b.checkBeforeAppend with
  | some e => .error e
  | none =>
      let pre := b.raw ++ [0x0B] ++ cstring name ++ cstring value.Pattern
      .ok { b with raw := pre ++ cstring value.Options }

/-- Go `Bson.AppendTimestamp`: tag `0x11`, cstring name, int32 increment,
int32 second. -/
def Bson.AppendTimestamp (b : Bson) (name : String) (value : Timestamp) : Except String Bson :=
  match b.checkBeforeAppend with
  | some e => .error e
  | none =>
      let pre := Bson.appendInt32Raw (b.raw ++ [0x11] ++ cstring name) value.Increment
      .ok { b with raw := Bson.appendInt32Raw pre value.Second }

/-- Go `Bson.AppendMinKey`: tag `0xFF`, cstring name, no payload. -/
def Bson.AppendMinKey (b : Bson) (name : String) : Except String Bson :=
  match b.checkBeforeAppend with
  | some e => .error e
  | none => .ok { b with raw := b.raw ++ [0xFF] ++ cstring name }

/-- Go `Bson.AppendMaxKey`: tag `0x7F`, cstring name, no payload. -/
def Bson.AppendMaxKey (b : Bson) (name : String) : Except String Bson :=
  match b.checkBeforeAppend with
  | some e => .error e
  | none => .ok { b with raw := b.raw ++ [0x7F] ++ cstring name }

/-- Go `Bson.Validate`.  The iterator (`BsonIterator`) is code of this
repository not under `src/`; the loop `for it.Next() { it.Name(); it.Value() }`
is therefore abstracted by a parameter `iterPanic` giving the panic message,
if any, that iterating the raw document raises.  The `defer/recover` block
turns any such panic into the error `"invalid bson: <p>"`. -/
def Bson.Validate (iterPanic : List Nat → Option String) (b : Bson) : Option String :=
  if !b.finished then some "unfinished bson"
  else if b.Length != (b.Raw.length : Int) then some "invalid bson length"
  else match iterPanic b.Raw with
    | some p => some ("invalid bson: " ++ p)
    | none => none

/-- The numeric runtime values the reflection bridge's narrowing rule
dispatches on: Go `int64`, `int` (64-bit), `uint64`, `uint`, `uintptr`.
A signed value is its mathematical value (the `int64` range is a
hypothesis in the theorems); an unsigned value is a natural `< 2^64`. -/
inductive GoNumValue where
  | int64V (v : Int)
  | intV (v : Int)
  | uint64V (u : Nat)
  | uintV (u : Nat)
  | uintptrV (u : Nat)
deriving Repr, DecidableEq

/-- The numeric cases of the reflection `Bson.Append` type switch.
`math.MinInt32`/`math.MaxInt32` are `-2^31`/`2^31 - 1`; `int64(value)` on
an unsigned value is the bit reinterpretation `toInt64`; `int32(val)` on a
value already in int32 range changes nothing (the element bytes are
`le32 (toUInt32 val)` either way). -/
def Bson.AppendNum (b : Bson) (name : String) : GoNumValue → Except String Bson
  | .int64V v =>
      if -2 ^ 31 ≤ v ∧ v ≤ 2 ^ 31 - 1 then b.AppendInt32 name v
      else b.AppendInt64 name v
  | .intV v =>
      if -2 ^ 31 ≤ v ∧ v ≤ 2 ^ 31 - 1 then b.AppendInt32 name v
      else b.AppendInt64 name v
  | .uint64V u =>
      let val := toInt64 u
      if val < 0 then
        .error "bson has no uint64 type, and value is too large to fit correctly in an int64"
      else if -2 ^ 31 ≤ val ∧ val ≤ 2 ^ 31 - 1 then b.AppendInt32 name val
      else b.AppendInt64 name val
  | .uintV u =>
      let val := toInt64 u
      if val < 0 then
        .error "bson has no uint64 type, and value is too large to fit correctly in an int64"
      else if -2 ^ 31 ≤ val ∧ val ≤ 2 ^ 31 - 1 then b.AppendInt32 name val
      else b.AppendInt64 name val
  | .uintptrV u =>
      let val := toInt64 u
      if val < 0 then
        .error "bson has no uint64 type, and value is too large to fit correctly in an int64"
      else if -2 ^ 31 ≤ val ∧ val ≤ 2 ^ 31 - 1 then b.AppendInt32 name val
      else b.AppendInt64 name val

/-! ## The byte-order service (`ByteOrder` and its two codecs)

The process-wide `byteOrder` variable set by `init` is modelled as an
arbitrary `ByteOrderKind`; note that the document builder's own byte
emission (`appendInt32`/`appendInt64`/`appendFloat64` above) never
consults it. -/

inductive ByteOrderKind where
  | little
  | big
deriving Repr, DecidableEq

/-- Go `littleEndian.AppendInt32`. -/
def littleEndian.AppendInt32 (b : List Nat) (v : Int) : List Nat :=
  b ++ le32 (toUInt32 v)

/-- Go `littleEndian.AppendInt64`. -/
def littleEndian.AppendInt64 (b : List Nat) (v : Int) : List Nat :=
  b ++ le64 (toUInt64 v)

/-- Go `littleEndian.AppendFloat64` (value as its IEEE-754 bit pattern):
`AppendInt64(b, int64(math.Float64bits(v)))`. -/
def littleEndian.AppendFloat64 (b : List Nat) (bits : Nat) : List Nat :=
  littleEndian.AppendInt64 b (toInt64 bits)

/-- Go `bigEndian.AppendInt32`. -/
def bigEndian.AppendInt32 (b : List Nat) (v : Int) : List Nat :=
  b ++ be32 (toUInt32 v)

/-- Go `bigEndian.AppendInt64`. -/
def bigEndian.AppendInt64 (b : List Nat) (v : Int) : List Nat :=
  b ++ be64 (toUInt64 v)

/-- Go `bigEndian.AppendFloat64` (value as its IEEE-754 bit pattern). -/
def bigEndian.AppendFloat64 (b : List Nat) (bits : Nat) : List Nat :=
  bigEndian.AppendInt64 b (toInt64 bits)

/-- Go `GetByteOrder().AppendInt32`: the codec the init-time detection chose. -/
def detectedAppendInt32 : ByteOrderKind → List Nat → Int → List Nat
  | .little => littleEndian.AppendInt32
  | .big => bigEndian.AppendInt32

/-- Go `GetByteOrder().AppendInt64`. -/
def detectedAppendInt64 : ByteOrderKind → List Nat → Int → List Nat
  | .little => littleEndian.AppendInt64
  | .big => bigEndian.AppendInt64

/-- Go `GetByteOrder().AppendFloat64`. -/
def detectedAppendFloat64 : ByteOrderKind → List Nat → Nat → List Nat
  | .little => littleEndian.AppendFloat64
  | .big => bigEndian.AppendFloat64

/-! ## The wire-message layer (package `sdb`)

An `io.Writer` is modelled by the list of bytes written, in order; an
`io.Reader` by the list of bytes still unread, with `readFull`
(`io.ReadFull`) consuming an exact count or failing.  `binary.ByteOrder`
is the `ByteOrderKind` parameter. -/

/-- Go `uint16(v)` applied to a signed value. -/
def toUInt16 (v : Int) : Nat := (v % (2 ^ 16 : Int)).toNat

/-- Go `order.PutUint16`: the two bytes written. -/
def putUint16 : ByteOrderKind → Nat → List Nat
  | .little, u => [u % 256, u / 2 ^ 8 % 256]
  | .big, u => [u / 2 ^ 8 % 256, u % 256]

/-- Go `order.PutUint32`: the four bytes written. -/
def putUint32 : ByteOrderKind → Nat → List Nat
  | .little, u => le32 u
  | .big, u => be32 u

/-- Go `order.PutUint64`: the eight bytes written. -/
def putUint64 : ByteOrderKind → Nat → List Nat
  | .little, u => le64 u
  | .big, u => be64 u

/-- Go `order.Uint32`: read four bytes (missing bytes as 0). -/
def getUint32 : ByteOrderKind → List Nat → Nat
  | .little, l => l.getD 0 0 + 2 ^ 8 * l.getD 1 0 + 2 ^ 16 * l.getD 2 0 + 2 ^ 24 * l.getD 3 0
  | .big, l => l.getD 3 0 + 2 ^ 8 * l.getD 2 0 + 2 ^ 16 * l.getD 1 0 + 2 ^ 24 * l.getD 0 0

/-- Go `order.Uint64`: read eight bytes (missing bytes as 0). -/
def getUint64 : ByteOrderKind → List Nat → Nat
  | .little, l =>
      l.getD 0 0 + 2 ^ 8 * l.getD 1 0 + 2 ^ 16 * l.getD 2 0 + 2 ^ 24 * l.getD 3 0 +
      2 ^ 32 * l.getD 4 0 + 2 ^ 40 * l.getD 5 0 + 2 ^ 48 * l.getD 6 0 + 2 ^ 56 * l.getD 7 0
  | .big, l =>
      l.getD 7 0 + 2 ^ 8 * l.getD 6 0 + 2 ^ 16 * l.getD 5 0 + 2 ^ 24 * l.getD 4 0 +
      2 ^ 32 * l.getD 3 0 + 2 ^ 40 * l.getD 2 0 + 2 ^ 48 * l.getD 1 0 + 2 ^ 56 * l.getD 0 0

/-- Go `io.ReadFull`: exactly `n` bytes, or an EOF error. -/
def readFull (r : List Nat) (n : Nat) : Except String (List Nat × List Nat) :=
  if r.length < n then .error "EOF" else .ok (r.take n, r.drop n)

/-- Go `MsgHeader`: `{length:i32, opcode:u32, tid:u32, route_id:u64,
request_id:u64}`. -/
structure MsgHeader where
  Length : Int
  OpCode : Nat
  Tid : Nat
  RouteId : Nat
  RequestId : Nat
deriving Repr, DecidableEq

/-- Go `MsgHeader.Encode`: the 28 header bytes, in field order. -/
def MsgHeader.Encode (ord : ByteOrderKind) (m : MsgHeader) : List Nat :=
  putUint32 ord (toUInt32 m.Length) ++ putUint32 ord m.OpCode ++ putUint32 ord m.Tid ++
    putUint64 ord m.RouteId ++ putUint64 ord m.RequestId

/-- Go `MsgHeader.Decode`: read 28 bytes, split the fields. -/
def MsgHeader.Decode (ord : ByteOrderKind) (r : List Nat) :
    Except String (MsgHeader × List Nat) :=
  match readFull r 28 with
  | .error e => .error e
  | .ok (buf, rest) =>
      .ok (⟨toInt32 (getUint32 ord buf), getUint32 ord (buf.drop 4), getUint32 ord (buf.drop 8),
            getUint64 ord (buf.drop 12), getUint64 ord (buf.drop 20)⟩, rest)

/-- Go `ReplyMsg`: header plus `context_id, flags, start_from, return_num`
and the decoded error text. -/
structure ReplyMsg where
  header : MsgHeader
  ContextId : Int
  Flags : Int
  StartFrom : Int
  ReturnNum : Int
  Error : String
deriving Repr, DecidableEq

/-- Go `ReplyMsg.Decode`: header, length check against `m.Size() = 48`,
20-byte fixed body, then — only when `flags != 0` — the trailing
`length - 48` bytes as an error document whose string rendering becomes
`Error`.  The rendering `errInfo.String()` walks the document through the
iterator, which is not under `src/`; it is abstracted as the `render`
parameter. -/
def ReplyMsg.Decode (render : List Nat → String) (ord : ByteOrderKind) (r : List Nat) :
    Except String (ReplyMsg × List Nat) :=
  match MsgHeader.Decode ord r with
  | .error e => .error e
  | .ok (h, r1) =>
      if h.Length < 48 then
        .error ("invalid msg length: expect 48, actual " ++ toString h.Length)
      else
        match readFull r1 20 with
        | .error e => .error e
        | .ok (buf, r2) =>
            let m : ReplyMsg := ⟨h, toInt64 (getUint64 ord buf),
              toInt32 (getUint32 ord (buf.drop 8)), toInt32 (getUint32 ord (buf.drop 12)),
              toInt32 (getUint32 ord (buf.drop 16)), ""⟩
            if m.Flags = 0 then .ok (m, r2)
            else
              match readFull r2 (h.Length - 48).toNat with
              | .error e => .error e
              | .ok (tail, r3) => .ok ({ m with Error := render tail }, r3)

/-- Go `SysInfoMsgHeader`: `{special:u32, eye_catcher:u32, length:i32}`. -/
structure SysInfoMsgHeader where
  Special : Nat
  EyeCatcher : Nat
  Length : Int
deriving Repr, DecidableEq

/-- Go `SysInfoMsgHeader.Decode`: read 12 bytes, split the fields. -/
def SysInfoMsgHeader.Decode (ord : ByteOrderKind) (r : List Nat) :
    Except String (SysInfoMsgHeader × List Nat) :=
  match readFull r 12 with
  | .error e => .error e
  | .ok (buf, rest) =>
      .ok (⟨getUint32 ord buf, getUint32 ord (buf.drop 4),
            toInt32 (getUint32 ord (buf.drop 8))⟩, rest)

/-- Go `SysInfoReply`: the 128-byte handshake reply. -/
structure SysInfoReply where
  header : SysInfoMsgHeader
  OSType : Int
deriving Repr, DecidableEq

/-- Go `SysInfoReply.Decode`: header, then the `Length == 128` check, then
the remaining `128 - 12 = 116` body bytes, of which the first four are
`OSType`. -/
def SysInfoReply.Decode (ord : ByteOrderKind) (r : List Nat) :
    Except String (SysInfoReply × List Nat) :=
  match SysInfoMsgHeader.Decode ord r with
  | .error e => .error e
  | .ok (h, r1) =>
      if h.Length ≠ 128 then .error "invalid sysinfo reply size"
      else
        match readFull r1 116 with
        | .error e => .error e
        | .ok (buf, r2) => .ok (⟨h, toInt32 (getUint32 ord buf)⟩, r2)

/-- Go `alignedSize(v, align)`.  Modelled from the spec: the helper is defined
outside `src/`; the spec fixes it as rounding up to the next multiple of
the alignment ("zero-padding up to a 4-byte boundary").  Division is
Euclidean, which agrees with Go's truncating division on the nonnegative
sizes it is applied to. -/
def alignedSize (v align : Int) : Int := (v + align - 1) / align * align

/-- Go `emptyBson`.  Modelled from the spec: the shared empty document
(defined outside `src/`) is the finished fresh builder, the 5-byte `{}`
encoding. -/
def emptyBson : Bson :=
  match NewBson.Finish with
  | .ok b => b
  | .error _ => NewBson

/-- Go `writeBson`: write `b.Raw()`, then zero-padding up to
`alignedSize(int32(b.Length()), 4)`. -/
def writeBson (b : Bson) : List Nat :=
  let paddingLen := alignedSize b.Length 4 - b.Length
  b.Raw ++ (if 0 < paddingLen then List.replicate paddingLen.toNat 0 else [])

/-- The zero-padding written after the collection name: length
`alignedSize(NameLength+1, 4) - NameLength` (always positive, supplying
the name's terminating NUL). -/
def namePadding (nameLength : Int) : List Nat :=
  let paddingLen := alignedSize (nameLength + 1) 4 - nameLength
  if 0 < paddingLen then List.replicate paddingLen.toNat 0 else []

/-- Go `QueryMsg`. -/
structure QueryMsg where
  header : MsgHeader
  Version : Int
  W : Int
  padding : Nat
  Flags : Int
  NameLength : Int
  SkipNum : Int
  ReturnNum : Int
  Name : List Nat
  Where : Option Bson
  Select : Option Bson
  OrderBy : Option Bson
  Hint : Option Bson

/-- The bytes `QueryMsg.Encode` writes before any document: header, the
32-byte prelude, the collection name, the name padding. -/
def QueryMsg.fixedBytes (ord : ByteOrderKind) (m : QueryMsg) : List Nat :=
  m.header.Encode ord ++ putUint32 ord (toUInt32 m.Version) ++ putUint16 ord (toUInt16 m.W) ++
    putUint16 ord m.padding ++ putUint32 ord (toUInt32 m.Flags) ++
    putUint32 ord (toUInt32 m.NameLength) ++ putUint64 ord (toUInt64 m.SkipNum) ++
    putUint64 ord (toUInt64 m.ReturnNum) ++ m.Name ++ namePadding m.NameLength

/-- Go `QueryMsg.Encode`: fixed part, then each non-nil document in order
`Where, Select, OrderBy, Hint` via `writeBson`. -/
def QueryMsg.Encode (ord : ByteOrderKind) (m : QueryMsg) : List Nat :=
  m.fixedBytes ord ++
    (match m.Where with | some b => writeBson b | none => []) ++
    (match m.Select with | some b => writeBson b | none => []) ++
    (match m.OrderBy with | some b => writeBson b | none => []) ++
    (match m.Hint with | some b => writeBson b | none => [])

/-- The documents a query frame embeds, in write order. -/
def QueryMsg.docs (m : QueryMsg) : List Bson :=
  m.Where.toList ++ m.Select.toList ++ m.OrderBy.toList ++ m.Hint.toList

/-- Go `InsertMsg`. -/
structure InsertMsg where
  header : MsgHeader
  Version : Int
  W : Int
  padding : Nat
  Flags : Int
  NameLength : Int
  Name : List Nat
  Doc : Option Bson

/-- The bytes `InsertMsg.Encode` writes before the document: header, the
16-byte prelude, the collection name, the name padding. -/
def InsertMsg.fixedBytes (ord : ByteOrderKind) (m : InsertMsg) : List Nat :=
  m.header.Encode ord ++ putUint32 ord (toUInt32 m.Version) ++ putUint16 ord (toUInt16 m.W) ++
    putUint16 ord m.padding ++ putUint32 ord (toUInt32 m.Flags) ++
    putUint32 ord (toUInt32 m.NameLength) ++ m.Name ++ namePadding m.NameLength

/-- Go `InsertMsg.Encode`: fixed part, then the document if non-nil. -/
def InsertMsg.Encode (ord : ByteOrderKind) (m : InsertMsg) : List Nat :=
  m.fixedBytes ord ++ (match m.Doc with | some b => writeBson b | none => [])

/-- The documents an insert frame embeds. -/
def InsertMsg.docs (m : InsertMsg) : List Bson := m.Doc.toList

/-- Go `DeleteMsg`. -/
structure DeleteMsg where
  header : MsgHeader
  Version : Int
  W : Int
  padding : Nat
  Flags : Int
  NameLength : Int
  Name : List Nat
  Condition : Option Bson
  Hint : Option Bson

/-- The bytes `DeleteMsg.Encode` writes before the documents. -/
def DeleteMsg.fixedBytes (ord : ByteOrderKind) (m : DeleteMsg) : List Nat :=
  m.header.Encode ord ++ putUint32 ord (toUInt32 m.Version) ++ putUint16 ord (toUInt16 m.W) ++
    putUint16 ord m.padding ++ putUint32 ord (toUInt32 m.Flags) ++
    putUint32 ord (toUInt32 m.NameLength) ++ m.Name ++ namePadding m.NameLength

/-- Go `DeleteMsg.Encode`: fixed part, then always two documents — condition
and hint, a nil one replaced by `emptyBson`. -/
def DeleteMsg.Encode (ord : ByteOrderKind) (m : DeleteMsg) : List Nat :=
  m.fixedBytes ord ++ writeBson (m.Condition.getD emptyBson) ++
    writeBson (m.Hint.getD emptyBson)

/-- The documents a delete frame embeds (after nil substitution). -/
def DeleteMsg.docs (m : DeleteMsg) : List Bson :=
  [m.Condition.getD emptyBson, m.Hint.getD emptyBson]

/-- Go `UpdateMsg`. -/
structure UpdateMsg where
  header : MsgHeader
  Version : Int
  W : Int
  padding : Nat
  Flags : Int
  NameLength : Int
  Name : List Nat
  Condition : Option Bson
  Rule : Option Bson
  Hint : Option Bson

/-- The bytes `UpdateMsg.Encode` writes before the documents. -/
def UpdateMsg.fixedBytes (ord : ByteOrderKind) (m : UpdateMsg) : List Nat :=
  m.header.Encode ord ++ putUint32 ord (toUInt32 m.Version) ++ putUint16 ord (toUInt16 m.W) ++
    putUint16 ord m.padding ++ putUint32 ord (toUInt32 m.Flags) ++
    putUint32 ord (toUInt32 m.NameLength) ++ m.Name ++ namePadding m.NameLength

/-- Go `UpdateMsg.Encode`: fixed part, then always three documents —
condition, rule, hint, a nil one replaced by `emptyBson`. -/
def UpdateMsg.Encode (ord : ByteOrderKind) (m : UpdateMsg) : List Nat :=
  m.fixedBytes ord ++ writeBson (m.Condition.getD emptyBson) ++
    writeBson (m.Rule.getD emptyBson) ++ writeBson (m.Hint.getD emptyBson)

/-- The documents an update frame embeds (after nil substitution). -/
def UpdateMsg.docs (m : UpdateMsg) : List Bson :=
  [m.Condition.getD emptyBson, m.Rule.getD emptyBson, m.Hint.getD emptyBson]

/-- A well-formed embedded document: the declared length equals the actual
byte length of `Raw`. -/
def wfDoc (b : Bson) : Prop := b.Length = (b.Raw.length : Int)

instance (b : Bson) : Decidable (wfDoc b) :=
  inferInstanceAs (Decidable (b.Length = (b.Raw.length : Int)))

/-- Holds `true` when a Go call returned normally, `false` when it panicked. -/
def succeeds {ε α : Type} : Except ε α → Bool
  | .ok _ => true
  | .error _ => false

/-! ## Helper lemmas -/

theorem succeeds_ok {ε α : Type} (a : α) : succeeds (ε := ε) (.ok a) = true := rfl

theorem succeeds_error {ε α : Type} (e : ε) : succeeds (α := α) (.error e) = false := rfl

theorem checkBeforeAppend_none_iff (b : Bson) :
    b.checkBeforeAppend = none ↔ b.finished = false ∧ b.inChild = false := by
  cases hf : b.finished <;> cases hc : b.inChild <;> simp [Bson.checkBeforeAppend, hf, hc]

theorem set4_eq (t : List Nat) (h : 4 ≤ t.length) (b0 b1 b2 b3 : Nat) :
    (((t.set 0 b0).set 1 b1).set 2 b2).set 3 b3 = b0 :: b1 :: b2 :: b3 :: t.drop 4 := by
  match t with
  | [] => simp at h
  | [_] => simp at h
  | [_, _] => simp at h
  | [_, _, _] => simp at h
  | _ :: _ :: _ :: _ :: _ => rfl

theorem setInt32_take_drop (raw : List Nat) (pos : Nat) (v : Int) (h : pos + 4 ≤ raw.length) :
    Bson.setInt32 raw pos v =
      raw.take pos ++ toUInt32 v % 256 :: toUInt32 v / 2 ^ 8 % 256 ::
        toUInt32 v / 2 ^ 16 % 256 :: toUInt32 v / 2 ^ 24 % 256 :: raw.drop (pos + 4) := by
  obtain ⟨s, t, rfl, hs, ht⟩ : ∃ s t, raw = s ++ t ∧ s.length = pos ∧ 4 ≤ t.length :=
    ⟨raw.take pos, raw.drop pos, (List.take_append_drop pos raw).symm,
      by simp; omega, by simp; omega⟩
  subst hs
  simp only [Bson.setInt32]
  rw [List.set_append_right _ _ (by omega), List.set_append_right _ _ (by omega),
      List.set_append_right _ _ (by omega), List.set_append_right _ _ (by omega)]
  simp only [Nat.sub_self, Nat.add_sub_cancel_left]
  rw [List.take_left, set4_eq t ht]
  congr 1
  simp

theorem readLE32_cons (b0 b1 b2 b3 : Nat) (rest : List Nat) :
    readLE32 (b0 :: b1 :: b2 :: b3 :: rest) = b0 + 2 ^ 8 * b1 + 2 ^ 16 * b2 + 2 ^ 24 * b3 := by
  simp [readLE32]

/-- The shape of `Finish` on an unfinished, not-in-child builder whose buffer
still holds the 4 reserved length bytes. -/
theorem Finish_ok (b : Bson) (hfin : b.finished = false) (hchild : b.inChild = false) :
    b.Finish = .ok { b with
      raw := Bson.setInt32 (b.raw ++ [eod]) b.offset (((b.raw ++ [eod]).length : Int) - b.offset),
      finished := true } := by
  simp [Bson.Finish, Bson.checkBeforeAppend, hfin, hchild]

/-- The `Raw` of a finished builder, in explicit little-endian-prefix form. -/
theorem Finish_raw_shape (b : Bson) (hfin : b.finished = false) (hchild : b.inChild = false)
    (hlen : b.offset + 4 ≤ b.raw.length) (hbound : (b.raw.length : Int) + 1 - b.offset < 2 ^ 31) :
    ∃ fb, b.Finish = .ok fb ∧
      fb.Raw = (b.raw.length + 1 - b.offset) % 256 :: (b.raw.length + 1 - b.offset) / 2 ^ 8 % 256 ::
        (b.raw.length + 1 - b.offset) / 2 ^ 16 % 256 :: (b.raw.length + 1 - b.offset) / 2 ^ 24 % 256 ::
        (b.raw.drop (b.offset + 4) ++ [eod]) ∧
      fb.offset = b.offset := by
  refine ⟨_, Finish_ok b hfin hchild, ?_, rfl⟩
  have hlen4 : b.offset + 4 ≤ (b.raw ++ [eod]).length := by simp; omega
  have hu : toUInt32 (((b.raw ++ [eod]).length : Int) - b.offset) = b.raw.length + 1 - b.offset := by
    simp only [toUInt32, List.length_append, List.length_cons, List.length_nil]
    have h1 : ((b.raw.length + 1 : Nat) : Int) - (b.offset : Int) =
        ((b.raw.length + 1 - b.offset : Nat) : Int) := by
      push_cast
      omega
    rw [h1, Int.emod_eq_of_lt (by positivity) (by push_cast at hbound ⊢; omega)]
    simp
  rw [Bson.Raw]
  simp only
  rw [setInt32_take_drop _ _ _ hlen4, List.drop_left' (by simp; omega), hu,
      List.drop_append_of_le_length (by omega)]

/-- C2: after `Finish`, the first four bytes of `Raw()` parsed as a
little-endian int32 equal the byte length of `Raw()` (length prefix and
terminator included), the last byte of `Raw()` is `0x00`, and `Validate`
reports "invalid bson length" whenever the stored length differs from the
actual byte length. -/
theorem C2_finish_length_self_consistent :
    (∀ b : Bson, b.finished = false → b.inChild = false →
        b.offset + 4 ≤ b.raw.length → (b.raw.length : Int) + 1 - b.offset < 2 ^ 31 →
        ∃ fb, b.Finish = .ok fb ∧ bytesToInt32 fb.Raw = (fb.Raw.length : Int) ∧
          fb.Raw.getLast? = some 0x00) ∧
    (∀ (iterPanic : List Nat → Option String) (b : Bson), b.finished = true →
        b.Length ≠ (b.Raw.length : Int) →
        Bson.Validate iterPanic b = some "invalid bson length") := by
  constructor
  · intro b hfin hchild hlen hbound
    obtain ⟨fb, hok, hraw, _⟩ := Finish_raw_shape b hfin hchild hlen hbound
    refine ⟨fb, hok, ?_, ?_⟩
    · set n : Nat := b.raw.length + 1 - b.offset with hn
      have hnlt : n < 2 ^ 31 := by
        push_cast at hbound
        omega
      have hread : readLE32 fb.Raw = n := by
        rw [hraw, readLE32_cons]
        omega
      have hlenraw : fb.Raw.length = n := by
        rw [hraw]
        simp
        omega
      rw [bytesToInt32, hread, hlenraw, toInt32, if_pos hnlt]
    · rw [hraw, show (b.raw.length + 1 - b.offset) % 256 :: (b.raw.length + 1 - b.offset) / 2 ^ 8 % 256 ::
          (b.raw.length + 1 - b.offset) / 2 ^ 16 % 256 :: (b.raw.length + 1 - b.offset) / 2 ^ 24 % 256 ::
          (b.raw.drop (b.offset + 4) ++ [eod]) =
          ((b.raw.length + 1 - b.offset) % 256 :: (b.raw.length + 1 - b.offset) / 2 ^ 8 % 256 ::
          (b.raw.length + 1 - b.offset) / 2 ^ 16 % 256 :: (b.raw.length + 1 - b.offset) / 2 ^ 24 % 256 ::
          b.raw.drop (b.offset + 4)) ++ [eod] by simp]
      exact List.getLast?_concat _
  · intro ip b hfin hne
    simp [Bson.Validate, hfin, bne_iff_ne, hne]

/-- Witness for C2 at concrete inputs: the fresh builder, and a wrapped
buffer whose stored length `1` differs from its actual length `5`. -/
theorem C2_finish_length_self_consistent_witness :
    (∃ fb, NewBson.Finish = .ok fb ∧ bytesToInt32 fb.Raw = (fb.Raw.length : Int) ∧
      fb.Raw.getLast? = some 0x00) ∧
    Bson.Validate (fun _ => none) (NewBsonWithRaw [1, 0, 0, 0, 0]) = some "invalid bson length" :=
  ⟨C2_finish_length_self_consistent.1 NewBson rfl rfl (by decide) (by decide),
   C2_finish_length_self_consistent.2 (fun _ => none) (NewBsonWithRaw [1, 0, 0, 0, 0]) rfl
     (by decide)⟩

/-- C3 (counterexample): the document built for `{"hello":"world"}` is NOT
the spec's scenario bytes `1B 00 00 00 ...` — the document is 22 bytes long,
so its length prefix is `0x16`, not `0x1B`. -/
theorem C3_hello_world_bytes_counterexample :
    Except.map Bson.Raw (NewBson.AppendString "hello" "world" >>= Bson.Finish) ≠
      .ok [0x1B, 0x00, 0x00, 0x00, 0x02, 0x68, 0x65, 0x6C, 0x6C, 0x6F, 0x00,
           0x06, 0x00, 0x00, 0x00, 0x77, 0x6F, 0x72, 0x6C, 0x64, 0x00, 0x00] := by
  decide

/-- C3 (amended): building `{"hello":"world"}` and finishing yields exactly
the raw bytes `16 00 00 00 02 68 65 6C 6C 6F 00 06 00 00 00 77 6F 72 6C 64
00 00` — the length prefix is the actual 22-byte size `0x16`. -/
theorem C3_hello_world_bytes :
    Except.map Bson.Raw (NewBson.AppendString "hello" "world" >>= Bson.Finish) =
      .ok [0x16, 0x00, 0x00, 0x00, 0x02, 0x68, 0x65, 0x6C, 0x6C, 0x6F, 0x00,
           0x06, 0x00, 0x00, 0x00, 0x77, 0x6F, 0x72, 0x6C, 0x64, 0x00, 0x00] := by
  decide

theorem toUInt32_natCast (u : Nat) (h : u < 2 ^ 32) : toUInt32 u = u := by
  rw [toUInt32, Int.emod_eq_of_lt (Int.natCast_nonneg u) (by exact_mod_cast h)]
  simp

theorem toUInt64_natCast (u : Nat) (h : u < 2 ^ 64) : toUInt64 u = u := by
  rw [toUInt64, Int.emod_eq_of_lt (Int.natCast_nonneg u) (by exact_mod_cast h)]
  simp

/-- C1: via the reflection bridge, a signed 64-bit (or platform-sized)
integer is written as an Int32 element (tag `0x10`) exactly when it lies in
`[-2^31, 2^31-1]`, and as Int64 (tag `0x12`) otherwise; a `uint64`, `uint`
or `uintptr` value panics with the "no uint64 type" message exactly when it
exceeds `2^63 - 1`, and otherwise follows the same Int32-iff-fits rule. -/
theorem C1_reflection_narrowing :
    ∀ (b : Bson) (name : String), b.finished = false → b.inChild = false →
      (∀ v : Int,
        b.AppendNum name (.int64V v) = .ok
          ⟨(if -2 ^ 31 ≤ v ∧ v ≤ 2 ^ 31 - 1 then
              b.raw ++ [0x10] ++ cstring name ++ le32 (toUInt32 v)
            else b.raw ++ [0x12] ++ cstring name ++ le64 (toUInt64 v)),
           b.offset, b.inChild, b.finished⟩) ∧
      (∀ v : Int, b.AppendNum name (.intV v) = b.AppendNum name (.int64V v)) ∧
      (∀ u : Nat, u < 2 ^ 64 →
        ((b.AppendNum name (.uint64V u) =
            .error "bson has no uint64 type, and value is too large to fit correctly in an int64") ↔
          2 ^ 63 - 1 < u)) ∧
      (∀ u : Nat, u ≤ 2 ^ 63 - 1 →
        b.AppendNum name (.uint64V u) = .ok
          ⟨(if u ≤ 2 ^ 31 - 1 then b.raw ++ [0x10] ++ cstring name ++ le32 u
            else b.raw ++ [0x12] ++ cstring name ++ le64 u),
           b.offset, b.inChild, b.finished⟩) ∧
      (∀ u : Nat, b.AppendNum name (.uintV u) = b.AppendNum name (.uint64V u)) ∧
      (∀ u : Nat, b.AppendNum name (.uintptrV u) = b.AppendNum name (.uint64V u)) := by
  intro b name hfin hchild
  have hcheck : b.checkBeforeAppend = none := (checkBeforeAppend_none_iff b).mpr ⟨hfin, hchild⟩
  refine ⟨?_, fun v => rfl, ?_, ?_, fun u => rfl, fun u => rfl⟩
  · intro v
    simp only [Bson.AppendNum]
    by_cases hfits : -2 ^ 31 ≤ v ∧ v ≤ 2 ^ 31 - 1
    · rw [if_pos hfits, if_pos hfits, Bson.AppendInt32]
      simp [hcheck, Bson.appendInt32Raw]
    · rw [if_neg hfits, if_neg hfits, Bson.AppendInt64]
      simp [hcheck, Bson.appendInt64Raw]
  · intro u hu
    simp only [Bson.AppendNum]
    by_cases h63 : u < 2 ^ 63
    · have hvn : ¬ toInt64 u < 0 := by
        rw [toInt64, if_pos h63]
        exact Int.not_lt.mpr (Int.natCast_nonneg u)
      rw [if_neg hvn]
      constructor
      · intro heq
        by_cases hfits : -2 ^ 31 ≤ toInt64 u ∧ toInt64 u ≤ 2 ^ 31 - 1
        · rw [if_pos hfits, Bson.AppendInt32] at heq
          simp [hcheck] at heq
        · rw [if_neg hfits, Bson.AppendInt64] at heq
          simp [hcheck] at heq
      · intro hbig
        exact absurd hbig (by omega)
    · have hvn : toInt64 u < 0 := by
        rw [toInt64, if_neg h63]
        omega
      rw [if_pos hvn]
      simp
      omega
  · intro u hu
    have h63 : u < 2 ^ 63 := by omega
    have hval : toInt64 u = (u : Int) := by rw [toInt64, if_pos h63]
    have hvn : ¬ toInt64 u < 0 := by
      rw [hval]
      exact Int.not_lt.mpr (Int.natCast_nonneg u)
    simp only [Bson.AppendNum]
    rw [if_neg hvn]
    by_cases hfits : u ≤ 2 ^ 31 - 1
    · have hfits2 : -2 ^ 31 ≤ toInt64 u ∧ toInt64 u ≤ 2 ^ 31 - 1 := by
        rw [hval]
        constructor <;> omega
      have h32 : toUInt32 (toInt64 u) = u := by
        rw [hval, toUInt32_natCast u (by omega)]
      rw [if_pos hfits2, if_pos hfits, Bson.AppendInt32]
      simp [hcheck, Bson.appendInt32Raw, h32]
    · have hfits2 : ¬ (-2 ^ 31 ≤ toInt64 u ∧ toInt64 u ≤ 2 ^ 31 - 1) := by
        rw [hval]
        intro hc
        omega
      have h64 : toUInt64 (toInt64 u) = u := by
        rw [hval, toUInt64_natCast u (by omega)]
      rw [if_neg hfits2, if_neg hfits, Bson.AppendInt64]
      simp [hcheck, Bson.appendInt64Raw, h64]

/-- Witness for C1: at the fresh builder, `2^63` as a `uint64` panics with
the "no uint64 type" message. -/
theorem C1_reflection_narrowing_witness :
    NewBson.finished = false ∧ (2 ^ 63 : Nat) < 2 ^ 64 ∧
    ((NewBson.AppendNum "a" (.uint64V (2 ^ 63)) =
        .error "bson has no uint64 type, and value is too large to fit correctly in an int64") ↔
      2 ^ 63 - 1 < (2 ^ 63 : Nat)) :=
  ⟨rfl, by norm_num,
   (C1_reflection_narrowing NewBson "a" rfl rfl).2.2.1 (2 ^ 63) (by norm_num)⟩

/-- An operation guarded by `checkBeforeAppend` succeeds exactly when the
builder is neither finished nor holding an open child. -/
theorem check_op_succeeds {α : Type} (b : Bson) (x : α) :
    succeeds (match b.checkBeforeAppend with
              | some e => Except.error e
              | none => Except.ok x) = true ↔ b.finished = false ∧ b.inChild = false := by
  rw [← checkBeforeAppend_none_iff]
  cases h : b.checkBeforeAppend <;> simp [succeeds]

theorem appendBinary_succeeds (b : Bson) (n : String) (v : Binary) :
    succeeds (b.AppendBinary n v) = true ↔
      b.finished = false ∧ b.inChild = false ∧ v.Data ≠ none := by
  cases h : b.checkBeforeAppend with
  | some e =>
      have hnc : ¬ (b.finished = false ∧ b.inChild = false) := by
        rw [← checkBeforeAppend_none_iff, h]
        simp
      refine iff_of_false (by simp [Bson.AppendBinary, h, succeeds]) fun hc => hnc ⟨hc.1, hc.2.1⟩
  | none =>
      obtain ⟨hf, hc⟩ := (checkBeforeAppend_none_iff b).mp h
      cases hd : v.Data with
      | none =>
          refine iff_of_false (by simp [Bson.AppendBinary, h, hd, succeeds]) (by simp [hd])
      | some data =>
          simp [Bson.AppendBinary, h, hd, succeeds, hf, hc]

theorem appendObjectId_succeeds (b : Bson) (n : String) (oid : List Nat) :
    succeeds (b.AppendObjectId n oid) = true ↔
      b.finished = false ∧ b.inChild = false ∧ ObjectId.IsValid oid = true := by
  cases h : b.checkBeforeAppend with
  | some e =>
      have hnc : ¬ (b.finished = false ∧ b.inChild = false) := by
        rw [← checkBeforeAppend_none_iff, h]
        simp
      refine iff_of_false (by simp [Bson.AppendObjectId, h, succeeds]) fun hc => hnc ⟨hc.1, hc.2.1⟩
  | none =>
      obtain ⟨hf, hc⟩ := (checkBeforeAppend_none_iff b).mp h
      cases hv : ObjectId.IsValid oid with
      | true => simp [Bson.AppendObjectId, h, hv, succeeds, hf, hc]
      | false =>
          refine iff_of_false (by simp [Bson.AppendObjectId, h, hv, succeeds]) (by simp [hv])

/-- C5 (counterexample): `AppendBinary` with a nil payload panics even
though the builder is neither finished nor holding an open child, refuting
the claim that every append succeeds whenever the finished/in-child
preconditions hold (`AppendObjectId` likewise panics on an invalid id). -/
theorem C5_append_precondition_counterexample :
    NewBson.finished = false ∧ NewBson.inChild = false ∧
    succeeds (NewBson.AppendBinary "a" ⟨0, none⟩) = false := by
  decide

/-- C5 (amended): every append operation panics when the builder is
finished or has an open child, and `AppendBsonEnd`/`AppendArrayEnd` panic
exactly unless a child is open, the builder is unfinished, and the child's
buffer ends in the `0x00` end-of-document byte; when those preconditions
hold the append succeeds — except that `AppendBinary` additionally panics
exactly on a nil payload and `AppendObjectId` exactly on an invalid
object id. -/
theorem C5_append_precondition_contract :
    (∀ (b : Bson) (n v : String),
        succeeds (b.AppendString n v) = true ↔ b.finished = false ∧ b.inChild = false) ∧
    (∀ (b : Bson) (n : String) (v : Int),
        succeeds (b.AppendInt32 n v) = true ↔ b.finished = false ∧ b.inChild = false) ∧
    (∀ (b : Bson) (n : String) (v : Int),
        succeeds (b.AppendInt64 n v) = true ↔ b.finished = false ∧ b.inChild = false) ∧
    (∀ (b : Bson) (n : String) (bits : Nat),
        succeeds (b.AppendFloat64 n bits) = true ↔ b.finished = false ∧ b.inChild = false) ∧
    (∀ (b : Bson) (n : String),
        succeeds (b.AppendNull n) = true ↔ b.finished = false ∧ b.inChild = false) ∧
    (∀ (b : Bson) (n : String) (v : Bool),
        succeeds (b.AppendBool n v) = true ↔ b.finished = false ∧ b.inChild = false) ∧
    (∀ (b : Bson) (n : String),
        succeeds (b.AppendBsonStart n) = true ↔ b.finished = false ∧ b.inChild = false) ∧
    (∀ (b : Bson) (n : String),
        succeeds (b.AppendArrayStart n) = true ↔ b.finished = false ∧ b.inChild = false) ∧
    (∀ b : Bson, succeeds b.Finish = true ↔ b.finished = false ∧ b.inChild = false) ∧
    (∀ (b : Bson) (n : String) (v : Bson),
        succeeds (b.AppendBson n v) = true ↔ b.finished = false ∧ b.inChild = false) ∧
    (∀ (b : Bson) (n : String) (v : Bson),
        succeeds (b.AppendArray n v) = true ↔ b.finished = false ∧ b.inChild = false) ∧
    (∀ (b : Bson) (n : String) (v : Int),
        succeeds (b.AppendDate n v) = true ↔ b.finished = false ∧ b.inChild = false) ∧
    (∀ (b : Bson) (n : String) (v : RegEx),
        succeeds (b.AppendRegex n v) = true ↔ b.finished = false ∧ b.inChild = false) ∧
    (∀ (b : Bson) (n : String) (v : Timestamp),
        succeeds (b.AppendTimestamp n v) = true ↔ b.finished = false ∧ b.inChild = false) ∧
    (∀ (b : Bson) (n : String),
        succeeds (b.AppendMinKey n) = true ↔ b.finished = false ∧ b.inChild = false) ∧
    (∀ (b : Bson) (n : String),
        succeeds (b.AppendMaxKey n) = true ↔ b.finished = false ∧ b.inChild = false) ∧
    (∀ (b : Bson) (n : String) (v : Binary),
        succeeds (b.AppendBinary n v) = true ↔
          b.finished = false ∧ b.inChild = false ∧ v.Data ≠ none) ∧
    (∀ (b : Bson) (n : String) (oid : List Nat),
        succeeds (b.AppendObjectId n oid) = true ↔
          b.finished = false ∧ b.inChild = false ∧ ObjectId.IsValid oid = true) ∧
    (∀ b child : Bson,
        succeeds (b.AppendBsonEnd child) = true ↔
          b.inChild = true ∧ b.finished = false ∧ child.raw.getLast? = some 0x00) ∧
    (∀ b child : Bson,
        succeeds (b.AppendArrayEnd child) = true ↔
          b.inChild = true ∧ b.finished = false ∧ child.raw.getLast? = some 0x00) := by
  refine ⟨fun b n v => check_op_succeeds b _, fun b n v => check_op_succeeds b _,
          fun b n v => check_op_succeeds b _, fun b n bits => check_op_succeeds b _,
          fun b n => check_op_succeeds b _, fun b n v => check_op_succeeds b _,
          fun b n => check_op_succeeds b _, fun b n => check_op_succeeds b _,
          fun b => check_op_succeeds b _, fun b n v => check_op_succeeds b _,
          fun b n v => check_op_succeeds b _, fun b n v => check_op_succeeds b _,
          fun b n v => check_op_succeeds b _, fun b n v => check_op_succeeds b _,
          fun b n => check_op_succeeds b _, fun b n => check_op_succeeds b _,
          fun b n v => appendBinary_succeeds b n v,
          fun b n oid => appendObjectId_succeeds b n oid, ?_, ?_⟩
  all_goals
    intro b c
    cases hin : b.inChild
    · simp [Bson.AppendBsonEnd, Bson.AppendArrayEnd, hin, succeeds]
    · cases hfin : b.finished
      · cases hl : c.raw.getLast? with
        | none => simp [Bson.AppendBsonEnd, Bson.AppendArrayEnd, hin, hfin, hl, succeeds]
        | some last =>
          by_cases hlast : last = 0
          · simp [Bson.AppendBsonEnd, Bson.AppendArrayEnd, hin, hfin, hl, succeeds, hlast, eod]
          · simp [Bson.AppendBsonEnd, Bson.AppendArrayEnd, hin, hfin, hl, succeeds, hlast, eod]
      · simp [Bson.AppendBsonEnd, Bson.AppendArrayEnd, hin, hfin, succeeds]

/-- C9: `Validate` on any buffer wrapped as a finished document is a total
function whose result is `none` (valid) or one of the typed errors
"invalid bson length" / "invalid bson: <recovered panic>"; iteration
panics never escape. -/
theorem C9_validate_never_aborts :
    ∀ (iterPanic : List Nat → Option String) (raw : List Nat),
      Bson.Validate iterPanic (NewBsonWithRaw raw) = none ∨
      Bson.Validate iterPanic (NewBsonWithRaw raw) = some "invalid bson length" ∨
      ∃ p, Bson.Validate iterPanic (NewBsonWithRaw raw) = some ("invalid bson: " ++ p) := by
  intro ip raw
  rw [Bson.Validate]
  split
  · rename_i h
    simp [NewBsonWithRaw] at h
  · split
    · exact Or.inr (Or.inl rfl)
    · split
      · rename_i p hp
        exact Or.inr (Or.inr ⟨p, rfl⟩)
      · exact Or.inl rfl

/-- C4: the builder's int32/int64/float64 payload bytes coincide with the
little-endian codec's `AppendInt32`/`AppendInt64`/`AppendFloat64` for every
input — the builder never consults the init-time byte-order detection —
while the detected codec, had it been big-endian, would differ. -/
theorem C4_builder_always_little_endian :
    (∀ (raw : List Nat) (v : Int), Bson.appendInt32Raw raw v = littleEndian.AppendInt32 raw v) ∧
    (∀ (raw : List Nat) (v : Int), Bson.appendInt64Raw raw v = littleEndian.AppendInt64 raw v) ∧
    (∀ (raw : List Nat) (bits : Nat),
        Bson.appendFloat64Raw raw bits = littleEndian.AppendFloat64 raw bits) ∧
    detectedAppendInt32 .big [] 1 ≠ Bson.appendInt32Raw [] 1 :=
  ⟨fun _ _ => rfl, fun _ _ => rfl, fun _ _ => rfl, by decide⟩

/-- C6: an encoded Delete frame is its fixed part followed by exactly two
documents (condition then hint) and an encoded Update frame by exactly
three (condition, rule, hint); a nil document slot is written as the
5-byte empty encoding `05 00 00 00 00` (then alignment padding). -/
theorem C6_delete_update_embed_counts :
    (∀ (ord : ByteOrderKind) (m : DeleteMsg),
        DeleteMsg.Encode ord m = m.fixedBytes ord ++ writeBson (m.Condition.getD emptyBson) ++
          writeBson (m.Hint.getD emptyBson)) ∧
    (∀ (ord : ByteOrderKind) (m : UpdateMsg),
        UpdateMsg.Encode ord m = m.fixedBytes ord ++ writeBson (m.Condition.getD emptyBson) ++
          writeBson (m.Rule.getD emptyBson) ++ writeBson (m.Hint.getD emptyBson)) ∧
    emptyBson.Raw = [0x05, 0x00, 0x00, 0x00, 0x00] ∧
    writeBson emptyBson = [0x05, 0x00, 0x00, 0x00, 0x00] ++ [0x00, 0x00, 0x00] :=
  ⟨fun _ _ => rfl, fun _ _ => rfl, by decide, by decide⟩

/-- No "invalid msg length" error text is the `io.ReadFull` EOF error. -/
theorem invalid_msg_length_ne_eof (s : String) :
    "invalid msg length: expect 48, actual " ++ s ≠ "EOF" := by
  intro h
  have h2 := congrArg String.length h
  rw [String.length_append] at h2
  have h3 : ("invalid msg length: expect 48, actual ").length = 38 := by decide
  have h4 : ("EOF").length = 3 := by decide
  omega

/-- C8: `ReplyMsg.Decode` fails with the invalid-length error exactly when
the decoded header `Length` is below 48; for `Length ≥ 48` it consumes the
20-byte fixed body, and consumes (and renders into `Error`) a trailing
`Length - 48`-byte document exactly when the decoded flags are nonzero. -/
theorem C8_reply_decode_contract :
    ∀ (render : List Nat → String) (ord : ByteOrderKind) (r : List Nat)
      (h : MsgHeader) (r1 : List Nat),
      MsgHeader.Decode ord r = .ok (h, r1) →
      ((ReplyMsg.Decode render ord r =
          .error ("invalid msg length: expect 48, actual " ++ toString h.Length)) ↔
        h.Length < 48) ∧
      (48 ≤ h.Length → 20 ≤ r1.length →
        (toInt32 (getUint32 ord ((r1.take 20).drop 8)) = 0 →
          ReplyMsg.Decode render ord r =
            .ok (⟨h, toInt64 (getUint64 ord (r1.take 20)),
                  toInt32 (getUint32 ord ((r1.take 20).drop 8)),
                  toInt32 (getUint32 ord ((r1.take 20).drop 12)),
                  toInt32 (getUint32 ord ((r1.take 20).drop 16)), ""⟩, r1.drop 20)) ∧
        (toInt32 (getUint32 ord ((r1.take 20).drop 8)) ≠ 0 →
          (h.Length - 48).toNat ≤ r1.length - 20 →
          ReplyMsg.Decode render ord r =
            .ok (⟨h, toInt64 (getUint64 ord (r1.take 20)),
                  toInt32 (getUint32 ord ((r1.take 20).drop 8)),
                  toInt32 (getUint32 ord ((r1.take 20).drop 12)),
                  toInt32 (getUint32 ord ((r1.take 20).drop 16)),
                  render ((r1.drop 20).take (h.Length - 48).toNat)⟩,
                 (r1.drop 20).drop (h.Length - 48).toNat))) := by
  intro render ord r h r1 hdec
  simp only [ReplyMsg.Decode, hdec]
  constructor
  · by_cases hlt : h.Length < 48
    · rw [if_pos hlt]
      simp [hlt]
    · rw [if_neg hlt]
      refine iff_of_false ?_ hlt
      intro heq
      by_cases hr1 : r1.length < 20
      · rw [readFull, if_pos hr1] at heq
        exact invalid_msg_length_ne_eof (toString h.Length) (Except.error.inj heq).symm
      · rw [readFull, if_neg hr1] at heq
        simp only at heq
        split at heq
        · cases heq
        · by_cases hr2 : (r1.drop 20).length < (h.Length - 48).toNat
          · rw [readFull, if_pos hr2] at heq
            exact invalid_msg_length_ne_eof (toString h.Length) (Except.error.inj heq).symm
          · rw [readFull, if_neg hr2] at heq
            cases heq
  · intro h48 h20
    rw [if_neg (Int.not_lt.mpr h48), readFull, if_neg (Nat.not_lt.mpr h20)]
    simp only
    constructor
    · intro hf0
      rw [if_pos hf0]
    · intro hf0 htail
      rw [if_neg hf0, readFull,
          if_neg (by rw [List.length_drop]; exact Nat.not_lt.mpr htail)]

/-- Witness for C8: a little-endian 49-byte reply frame with `Length = 49`
and nonzero flags; the single trailing byte is rendered into `Error`. -/
theorem C8_reply_decode_contract_witness :
    MsgHeader.Decode .little
        ([49, 0, 0, 0] ++ List.replicate 24 0 ++
          ([0, 0, 0, 0, 0, 0, 0, 0, 1, 0, 0, 0, 0, 0, 0, 0, 0, 0, 0, 0] ++ [7])) =
      .ok (⟨49, 0, 0, 0, 0⟩,
        [0, 0, 0, 0, 0, 0, 0, 0, 1, 0, 0, 0, 0, 0, 0, 0, 0, 0, 0, 0] ++ [7]) ∧
    ReplyMsg.Decode (fun _ => "E") .little
        ([49, 0, 0, 0] ++ List.replicate 24 0 ++
          ([0, 0, 0, 0, 0, 0, 0, 0, 1, 0, 0, 0, 0, 0, 0, 0, 0, 0, 0, 0] ++ [7])) =
      .ok (⟨⟨49, 0, 0, 0, 0⟩, 0, 1, 0, 0, "E"⟩, []) := by
  refine ⟨by decide, ?_⟩
  have hc := C8_reply_decode_contract (fun _ => "E") .little
    ([49, 0, 0, 0] ++ List.replicate 24 0 ++
      ([0, 0, 0, 0, 0, 0, 0, 0, 1, 0, 0, 0, 0, 0, 0, 0, 0, 0, 0, 0] ++ [7]))
    ⟨49, 0, 0, 0, 0⟩
    ([0, 0, 0, 0, 0, 0, 0, 0, 1, 0, 0, 0, 0, 0, 0, 0, 0, 0, 0, 0] ++ [7]) (by decide)
  have h2 := (hc.2 (by norm_num) (by decide)).2 (by decide) (by decide)
  rw [h2]
  decide

/-- C10: `SysInfoReply.Decode` returns the "invalid sysinfo reply size"
error exactly when the decoded header `Length` differs from 128; only for
`Length = 128` does it consume the 116-byte body and set `OSType`. -/
theorem C10_sysinfo_reply_size_check :
    ∀ (ord : ByteOrderKind) (r : List Nat) (h : SysInfoMsgHeader) (r1 : List Nat),
      SysInfoMsgHeader.Decode ord r = .ok (h, r1) →
      ((SysInfoReply.Decode ord r = .error "invalid sysinfo reply size") ↔ h.Length ≠ 128) ∧
      (h.Length ≠ 128 → SysInfoReply.Decode ord r = .error "invalid sysinfo reply size") ∧
      (h.Length = 128 → 116 ≤ r1.length →
        SysInfoReply.Decode ord r =
          .ok (⟨h, toInt32 (getUint32 ord (r1.take 116))⟩, r1.drop 116)) := by
  intro ord r h r1 hdec
  have hmain : h.Length ≠ 128 → SysInfoReply.Decode ord r = .error "invalid sysinfo reply size" := by
    intro hne
    simp only [SysInfoReply.Decode, hdec]
    rw [if_pos hne]
  refine ⟨?_, hmain, ?_⟩
  · by_cases hne : h.Length ≠ 128
    · simp [hmain hne, hne]
    · refine iff_of_false ?_ hne
      rw [not_not] at hne
      simp only [SysInfoReply.Decode, hdec]
      rw [if_neg (by rw [hne]; exact fun hc => hc rfl)]
      by_cases hr1 : r1.length < 116
      · rw [readFull, if_pos hr1]
        intro heq
        exact absurd (Except.error.inj heq) (by decide)
      · rw [readFull, if_neg hr1]
        simp
  · intro he h116
    simp only [SysInfoReply.Decode, hdec]
    rw [if_neg (by rw [he]; exact fun hc => hc rfl), readFull, if_neg (Nat.not_lt.mpr h116)]

/-- Witness for C10: a 12-byte little-endian header declaring `Length = 5`
is rejected as an invalid sysinfo reply size. -/
theorem C10_sysinfo_reply_size_check_witness :
    SysInfoMsgHeader.Decode .little [0, 0, 0, 0, 0, 0, 0, 0, 5, 0, 0, 0] =
      .ok (⟨0, 0, 5⟩, []) ∧
    SysInfoReply.Decode .little [0, 0, 0, 0, 0, 0, 0, 0, 5, 0, 0, 0] =
      .error "invalid sysinfo reply size" :=
  ⟨by decide,
   (C10_sysinfo_reply_size_check .little [0, 0, 0, 0, 0, 0, 0, 0, 5, 0, 0, 0]
      ⟨0, 0, 5⟩ [] (by decide)).2.1 (by decide)⟩

/-! ## Alignment helper lemmas -/

theorem namePadding_eq (n : Nat) :
    namePadding (n : Int) = List.replicate ((n + 4) / 4 * 4 - n) 0 := by
  simp only [namePadding, alignedSize]
  rw [if_pos (by omega)]
  congr 1
  omega

theorem writeBson_eq (b : Bson) (hwf : wfDoc b) :
    writeBson b = b.Raw ++ List.replicate ((b.Raw.length + 3) / 4 * 4 - b.Raw.length) 0 := by
  have hL : b.Length = (b.Raw.length : Int) := hwf
  simp only [writeBson, alignedSize, hL]
  by_cases hpos : (0 : Int) < ((b.Raw.length : Int) + 4 - 1) / 4 * 4 - (b.Raw.length : Int)
  · rw [if_pos hpos]
    have ht : (((b.Raw.length : Int) + 4 - 1) / 4 * 4 - (b.Raw.length : Int)).toNat =
        (b.Raw.length + 3) / 4 * 4 - b.Raw.length := by omega
    rw [ht]
  · rw [if_neg hpos]
    have h0 : (b.Raw.length + 3) / 4 * 4 - b.Raw.length = 0 := by omega
    rw [h0]
    simp

theorem writeBson_length_mod (b : Bson) (hwf : wfDoc b) : (writeBson b).length % 4 = 0 := by
  rw [writeBson_eq b hwf]
  simp
  omega

theorem take_sum_writeBson_mod (docs : List Bson) (hwf : ∀ b ∈ docs, wfDoc b) (i : Nat) :
    (((docs.take i).map fun b => (writeBson b).length).sum) % 4 = 0 := by
  induction docs generalizing i with
  | nil => simp
  | cons b rest ih =>
    cases i with
    | zero => simp
    | succ j =>
      simp only [List.take_succ_cons, List.map_cons, List.sum_cons]
      have h1 := writeBson_length_mod b (hwf b (by simp))
      have h2 := ih (fun x hx => hwf x (by simp [hx])) j
      omega

theorem MsgHeader.Encode_length (ord : ByteOrderKind) (m : MsgHeader) :
    (m.Encode ord).length = 28 := by
  cases ord <;> simp [MsgHeader.Encode, putUint32, putUint64, le32, be32, le64, be64]

theorem putUint16_length (ord : ByteOrderKind) (u : Nat) : (putUint16 ord u).length = 2 := by
  cases ord <;> rfl

theorem putUint32_length (ord : ByteOrderKind) (u : Nat) : (putUint32 ord u).length = 4 := by
  cases ord <;> rfl

theorem putUint64_length (ord : ByteOrderKind) (u : Nat) : (putUint64 ord u).length = 8 := by
  cases ord <;> rfl

theorem fixed_shape_length_mod (pre name pad : List Nat) (hpre : pre.length % 4 = 0) (n : Nat)
    (hname : name.length = n) (hpad : pad = List.replicate ((n + 4) / 4 * 4 - n) 0) :
    (pre ++ name ++ pad).length % 4 = 0 := by
  simp [hname, hpad]
  omega

/-- C7: in every encoded Query/Insert/Delete/Update frame the part before
the documents is the fixed bytes (header, prelude, name, zero name-padding
of length `aligned(NameLength+1,4) - NameLength ≥ 1`, which supplies the
name's NUL), the fixed part's length is a multiple of 4, every document's
byte offset (fixed length plus the lengths of the preceding document
sections) is a multiple of 4, and each document section is the document's
raw bytes followed by zeros. -/
theorem C7_frame_alignment :
    (∀ (ord : ByteOrderKind) (m : QueryMsg), 0 ≤ m.NameLength →
      m.Name.length = m.NameLength.toNat → (∀ b ∈ m.docs, wfDoc b) →
      QueryMsg.Encode ord m = m.fixedBytes ord ++ m.docs.flatMap writeBson ∧
      (m.fixedBytes ord).length % 4 = 0 ∧
      namePadding m.NameLength =
        List.replicate ((m.NameLength.toNat + 4) / 4 * 4 - m.NameLength.toNat) 0 ∧
      1 ≤ (m.NameLength.toNat + 4) / 4 * 4 - m.NameLength.toNat ∧
      (∀ i, ((m.fixedBytes ord).length +
          ((m.docs.take i).map fun b => (writeBson b).length).sum) % 4 = 0) ∧
      (∀ b ∈ m.docs, writeBson b =
          b.Raw ++ List.replicate ((b.Raw.length + 3) / 4 * 4 - b.Raw.length) 0)) ∧
    (∀ (ord : ByteOrderKind) (m : InsertMsg), 0 ≤ m.NameLength →
      m.Name.length = m.NameLength.toNat → (∀ b ∈ m.docs, wfDoc b) →
      InsertMsg.Encode ord m = m.fixedBytes ord ++ m.docs.flatMap writeBson ∧
      (m.fixedBytes ord).length % 4 = 0 ∧
      namePadding m.NameLength =
        List.replicate ((m.NameLength.toNat + 4) / 4 * 4 - m.NameLength.toNat) 0 ∧
      1 ≤ (m.NameLength.toNat + 4) / 4 * 4 - m.NameLength.toNat ∧
      (∀ i, ((m.fixedBytes ord).length +
          ((m.docs.take i).map fun b => (writeBson b).length).sum) % 4 = 0) ∧
      (∀ b ∈ m.docs, writeBson b =
          b.Raw ++ List.replicate ((b.Raw.length + 3) / 4 * 4 - b.Raw.length) 0)) ∧
    (∀ (ord : ByteOrderKind) (m : DeleteMsg), 0 ≤ m.NameLength →
      m.Name.length = m.NameLength.toNat → (∀ b ∈ m.docs, wfDoc b) →
      DeleteMsg.Encode ord m = m.fixedBytes ord ++ m.docs.flatMap writeBson ∧
      (m.fixedBytes ord).length % 4 = 0 ∧
      namePadding m.NameLength =
        List.replicate ((m.NameLength.toNat + 4) / 4 * 4 - m.NameLength.toNat) 0 ∧
      1 ≤ (m.NameLength.toNat + 4) / 4 * 4 - m.NameLength.toNat ∧
      (∀ i, ((m.fixedBytes ord).length +
          ((m.docs.take i).map fun b => (writeBson b).length).sum) % 4 = 0) ∧
      (∀ b ∈ m.docs, writeBson b =
          b.Raw ++ List.replicate ((b.Raw.length + 3) / 4 * 4 - b.Raw.length) 0)) ∧
    (∀ (ord : ByteOrderKind) (m : UpdateMsg), 0 ≤ m.NameLength →
      m.Name.length = m.NameLength.toNat → (∀ b ∈ m.docs, wfDoc b) →
      UpdateMsg.Encode ord m = m.fixedBytes ord ++ m.docs.flatMap writeBson ∧
      (m.fixedBytes ord).length % 4 = 0 ∧
      namePadding m.NameLength =
        List.replicate ((m.NameLength.toNat + 4) / 4 * 4 - m.NameLength.toNat) 0 ∧
      1 ≤ (m.NameLength.toNat + 4) / 4 * 4 - m.NameLength.toNat ∧
      (∀ i, ((m.fixedBytes ord).length +
          ((m.docs.take i).map fun b => (writeBson b).length).sum) % 4 = 0) ∧
      (∀ b ∈ m.docs, writeBson b =
          b.Raw ++ List.replicate ((b.Raw.length + 3) / 4 * 4 - b.Raw.length) 0)) := by
  refine ⟨?_, ?_, ?_, ?_⟩
  · intro ord m h0 hname hwf
    obtain ⟨n, hn⟩ : ∃ n : Nat, m.NameLength = (n : Int) :=
      ⟨m.NameLength.toNat, (Int.toNat_of_nonneg h0).symm⟩
    have hname2 : m.Name.length = n := by
      rw [hname, hn]
      simp
    have hfix : (m.fixedBytes ord).length % 4 = 0 := by
      simp only [QueryMsg.fixedBytes, hn]
      refine fixed_shape_length_mod _ _ _ ?_ n hname2 (namePadding_eq n)
      simp [MsgHeader.Encode_length, putUint16_length, putUint32_length, putUint64_length]
    refine ⟨?_, hfix, ?_, ?_, ?_, fun b hb => writeBson_eq b (hwf b hb)⟩
    · rcases hW : m.Where with _ | w <;> rcases hS : m.Select with _ | s <;>
        rcases hO : m.OrderBy with _ | o <;> rcases hH : m.Hint with _ | hh <;>
        simp [QueryMsg.Encode, QueryMsg.docs, hW, hS, hO, hH]
    · rw [hn]
      simpa using namePadding_eq n
    · rw [hn]
      simp
      omega
    · intro i
      have := take_sum_writeBson_mod m.docs hwf i
      omega
  · intro ord m h0 hname hwf
    obtain ⟨n, hn⟩ : ∃ n : Nat, m.NameLength = (n : Int) :=
      ⟨m.NameLength.toNat, (Int.toNat_of_nonneg h0).symm⟩
    have hname2 : m.Name.length = n := by
      rw [hname, hn]
      simp
    have hfix : (m.fixedBytes ord).length % 4 = 0 := by
      simp only [InsertMsg.fixedBytes, hn]
      refine fixed_shape_length_mod _ _ _ ?_ n hname2 (namePadding_eq n)
      simp [MsgHeader.Encode_length, putUint16_length, putUint32_length, putUint64_length]
    refine ⟨?_, hfix, ?_, ?_, ?_, fun b hb => writeBson_eq b (hwf b hb)⟩
    · rcases hD : m.Doc with _ | d <;> simp [InsertMsg.Encode, InsertMsg.docs, hD]
    · rw [hn]
      simpa using namePadding_eq n
    · rw [hn]
      simp
      omega
    · intro i
      have := take_sum_writeBson_mod m.docs hwf i
      omega
  · intro ord m h0 hname hwf
    obtain ⟨n, hn⟩ : ∃ n : Nat, m.NameLength = (n : Int) :=
      ⟨m.NameLength.toNat, (Int.toNat_of_nonneg h0).symm⟩
    have hname2 : m.Name.length = n := by
      rw [hname, hn]
      simp
    have hfix : (m.fixedBytes ord).length % 4 = 0 := by
      simp only [DeleteMsg.fixedBytes, hn]
      refine fixed_shape_length_mod _ _ _ ?_ n hname2 (namePadding_eq n)
      simp [MsgHeader.Encode_length, putUint16_length, putUint32_length, putUint64_length]
    refine ⟨?_, hfix, ?_, ?_, ?_, fun b hb => writeBson_eq b (hwf b hb)⟩
    · simp [DeleteMsg.Encode, DeleteMsg.docs]
    · rw [hn]
      simpa using namePadding_eq n
    · rw [hn]
      simp
      omega
    · intro i
      have := take_sum_writeBson_mod m.docs hwf i
      omega
  · intro ord m h0 hname hwf
    obtain ⟨n, hn⟩ : ∃ n : Nat, m.NameLength = (n : Int) :=
      ⟨m.NameLength.toNat, (Int.toNat_of_nonneg h0).symm⟩
    have hname2 : m.Name.length = n := by
      rw [hname, hn]
      simp
    have hfix : (m.fixedBytes ord).length % 4 = 0 := by
      simp only [UpdateMsg.fixedBytes, hn]
      refine fixed_shape_length_mod _ _ _ ?_ n hname2 (namePadding_eq n)
      simp [MsgHeader.Encode_length, putUint16_length, putUint32_length, putUint64_length]
    refine ⟨?_, hfix, ?_, ?_, ?_, fun b hb => writeBson_eq b (hwf b hb)⟩
    · simp [UpdateMsg.Encode, UpdateMsg.docs]
    · rw [hn]
      simpa using namePadding_eq n
    · rw [hn]
      simp
      omega
    · intro i
      have := take_sum_writeBson_mod m.docs hwf i
      omega

/-- Witness for C7: a little-endian Delete frame for the 2-byte collection
name `"ab"` with nil condition and hint. -/
theorem C7_frame_alignment_witness :
    ((0 : Int) ≤ (2 : Int)) ∧
    ([97, 98] : List Nat).length = (2 : Int).toNat ∧
    (∀ b ∈ (⟨⟨0, 0, 0, 0, 0⟩, 0, 0, 0, 0, 2, [97, 98], none, none⟩ : DeleteMsg).docs, wfDoc b) ∧
    DeleteMsg.Encode .little (⟨⟨0, 0, 0, 0, 0⟩, 0, 0, 0, 0, 2, [97, 98], none, none⟩ : DeleteMsg) =
      (⟨⟨0, 0, 0, 0, 0⟩, 0, 0, 0, 0, 2, [97, 98], none, none⟩ : DeleteMsg).fixedBytes .little ++
        (⟨⟨0, 0, 0, 0, 0⟩, 0, 0, 0, 0, 2, [97, 98], none, none⟩ : DeleteMsg).docs.flatMap writeBson ∧
    ((⟨⟨0, 0, 0, 0, 0⟩, 0, 0, 0, 0, 2, [97, 98], none, none⟩ : DeleteMsg).fixedBytes .little).length +
        ((((⟨⟨0, 0, 0, 0, 0⟩, 0, 0, 0, 0, 2, [97, 98], none, none⟩ : DeleteMsg).docs.take 1).map
          fun b => (writeBson b).length).sum) ≡ 0 [MOD 4] := by
  have hc := C7_frame_alignment.2.2.1 .little
    (⟨⟨0, 0, 0, 0, 0⟩, 0, 0, 0, 0, 2, [97, 98], none, none⟩ : DeleteMsg)
    (by decide) (by decide) (by decide)
  refine ⟨by decide, by decide, by decide, hc.1, ?_⟩
  have h1 := hc.2.2.2.2.1 1
  simpa [Nat.ModEq] using h1

end GobsonExp
